import Mathlib

/-!
Verification of the crowdllama peer-discovery and DHT-server code
(`internal/discovery/discovery.go`, `pkg/dht/dht.go`) against its
natural-language specification, via a shallow embedding in Lean 4.

Go functions are embedded as pure Lean functions; the network
environment (stream reads, dial outcomes, JSON decoding, DHT bootstrap
results) is passed in explicitly as data or function parameters.
Timestamps are `Int` seconds; `time.Since(t)` becomes `now - t`.
-/

namespace CrowdLlama

/-- Modelled from the spec: the capability descriptor `Resource` from the
`pkg/crowdllama` package, which is not among the provided source files.
Field set follows the spec data model: `{PeerID, GPUModel, VRAMGB,
TokensThroughput, SupportedModels, WorkerMode, LastUpdated}`; the
throughput float is modelled as a rational, and `LastUpdated` as an
integer Unix timestamp in seconds. -/
structure Resource where
  peerID : String
  gpuModel : String
  vramGB : Int
  tokensThroughput : Rat
  supportedModels : List String
  workerMode : Bool
  lastUpdated : Int
deriving DecidableEq, Repr

/-- The staleness threshold hardcoded in `processProvider`
(`discovery.go:316`): `time.Since(metadata.LastUpdated) > 1*time.Hour`,
in seconds. -/
def processProviderMaxAgeSeconds : Int := 3600

/-- What one call of `processProvider` (`discovery.go:278-329`) did:
the returned `*crowdllama.Resource` (`none` = Go `nil`), whether
`MarkPeerAsRecentlyRemoved` was called on the peer, and whether a
metadata fetch (stream open) was attempted at all. -/
structure ProviderOutcome where
  result : Option Resource
  marked : Bool
  fetched : Bool
deriving DecidableEq, Repr

/-- Embedding of `processProvider` (`discovery.go:278-329`).
`pmPresent` is `peerManager != nil`; `isUnhealthy` is the answer
`peerManager.IsPeerUnhealthy(peerID)` would give; `fetch` is the
outcome `RequestPeerMetadata` would produce if invoked (`none` = the
fetch fails with a non-nil error); `now` is the current time in
seconds. The Go control flow: skip unhealthy peers without fetching;
on fetch error mark the peer recently removed (when a manager is
present) and return nil; reject metadata older than one hour; else
return it. -/
def processProvider (pmPresent isUnhealthy : Bool) (fetch : Option Resource)
    (now : Int) : ProviderOutcome :=
  if pmPresent && isUnhealthy then
    { result := none, marked := false, fetched := false }
  else
    match fetch with
    | none => { result := none, marked := pmPresent, fetched := true }
    | some metadata =>
      if now - metadata.lastUpdated > processProviderMaxAgeSeconds then
        { result := none, marked := false, fetched := true }
      else
        { result := some metadata, marked := false, fetched := true }

/-- One provider candidate yielded by `FindProvidersAsync`, together
with the environment's answers for it: whether the health manager
classifies it unhealthy, and the outcome its metadata fetch would
have. -/
structure Candidate where
  peerID : String
  isUnhealthy : Bool
  fetch : Option Resource
deriving DecidableEq, Repr

/-- Error result of `GetPeerNamespaceCID` / `DiscoverPeers`: a message
string, mirroring Go's `error`. -/
abbrev GoError := String

/-- Unsigned varint encoding used by the multihash wire format
(little-endian base-128 groups, high bit = continuation). -/
def encVarint (n : Nat) : List Nat :=
  if h : n < 128 then [n]
  else (n % 128 + 128) :: encVarint (n / 128)
decreasing_by
  exact Nat.div_lt_self (Nat.lt_of_lt_of_le (by norm_num) (Nat.le_of_not_lt h)) (by norm_num)

/-- The multihash code `multihash.IDENTITY` (0x00). -/
def identityCode : Nat := 0

/-- Embedding of `multihash.Sum(data, multihash.IDENTITY, -1)` from the
go-multihash library (external collaborator): for the identity code the
digest is the data itself and the multihash is
`varint(code) ++ varint(len) ++ digest`; it never errors. Only the
identity code — the one the repository uses — is modelled. -/
def multihashSum (code : Nat) (data : List Nat) : Except GoError (List Nat) :=
  if code = identityCode then
    Except.ok (encVarint code ++ encVarint data.length ++ data)
  else
    Except.error "unmodelled multihash code"

/-- A CID as constructed by `cid.NewCidV1(codec, mh)`. -/
structure Cid where
  version : Nat
  codec : Nat
  multihash : List Nat
deriving DecidableEq, Repr

/-- The `cid.Raw` codec (0x55). -/
def rawCodec : Nat := 0x55

/-- UTF-8 bytes of a string, as the Go conversion `[]byte(namespace)`. -/
def strBytes (s : String) : List Nat :=
  s.toUTF8.toList.map (fun b => b.toNat)

/-- Embedding of `GetPeerNamespaceCID` (`discovery.go:175-183`),
parameterised by the namespace string: identity-multihash the namespace
bytes (propagating a multihash error with the Go message prefix), then
wrap in a CIDv1 with the raw codec. -/
def GetPeerNamespaceCIDOf (ns : String) : Except GoError Cid :=
  match multihashSum identityCode (strBytes ns) with
  | Except.error e =>
    Except.error ("failed to create multihash for namespace: " ++ e)
  | Except.ok mh => Except.ok { version := 1, codec := rawCodec, multihash := mh }

/-- Modelled from the spec: the fixed namespace string
`crowdllama.PeerNamespace` (`pkg/crowdllama`, not among the provided
sources); its concrete value does not matter to any claim, so a
placeholder value is used. -/
def PeerNamespace : String := "crowdllama-peer-namespace"

/-- `GetPeerNamespaceCID` proper: the parameterised embedding applied to
the fixed namespace. -/
def GetPeerNamespaceCID : Except GoError Cid :=
  GetPeerNamespaceCIDOf PeerNamespace

/-- Spec-side description of the namespace CID: "the CIDv1 (raw codec)
over the identity multihash of the namespace string". Stated from the
spec's words, to be compared with `GetPeerNamespaceCIDOf`. -/
def specNamespaceCid (ns : String) : Cid :=
  { version := 1
    codec := rawCodec
    multihash := encVarint identityCode ++ encVarint (strBytes ns).length ++ strBytes ns }

/-- Embedding of `DiscoverPeers` (`discovery.go:332-366`): compute the
namespace CID (propagating its error with the Go message prefix), then
run `processProvider` on each candidate the provider query yields and
keep the non-nil results. `FindProvidersAsync` in Go returns a channel
and has no error return, so the candidate list is the only way the
query environment enters. -/
def DiscoverPeers (pmPresent : Bool) (now : Int) (cands : List Candidate) :
    Except GoError (List Resource) :=
  match GetPeerNamespaceCID with
  | Except.error e => Except.error ("failed to get namespace CID: " ++ e)
  | Except.ok _ =>
    Except.ok (cands.filterMap fun c =>
      (processProvider pmPresent c.isUnhealthy c.fetch now).result)

/-- Outcome of one `stream.Read(buf)` call beside the bytes it
delivered: no error, the `"EOF"` error, or any other error (a read
deadline expiring surfaces here as `other`). -/
inductive ReadErr where
  | eof
  | other
deriving DecidableEq, Repr

/-- Embedding of the loop of `readMetadataStream`
(`discovery.go:186-220`) over the stream's read events, each a chunk of
bytes plus an optional error. If `n > 0` the bytes are appended before
the error is inspected; `"EOF"` breaks the loop, any other error
returns failure; after the loop, zero accumulated bytes is also a
failure. Outer `none` = the event list ran out without an error, i.e.
the Go loop would still be blocked in `Read` (it only exits via an
error). Inner `none` = the Go function returned a non-nil error. -/
def readLoop : List (List Nat × Option ReadErr) → List Nat →
    Option (Option (List Nat))
  | [], _ => none
  | (bs, none) :: rest, acc => readLoop rest (acc ++ bs)
  | (bs, some ReadErr.eof) :: _, acc =>
    let m := acc ++ bs
    some (if m.isEmpty then none else some m)
  | (_, some ReadErr.other) :: _, _ => some none

/-- Outcome of `RequestPeerMetadata`: the call blocks forever, returns a
non-nil error, or returns a `Resource`. -/
inductive FetchOut where
  | diverges
  | fails
  | ok (r : Resource)
deriving DecidableEq, Repr

/-- Embedding of `RequestPeerMetadata` (`discovery.go:223-275`).
`fromJSON` models `crowdllama.FromJSON` (external to the provided
sources): what the JSON decoder yields on the accumulated bytes, `none`
on decode failure. `stream` is `none` when `h.NewStream` fails, else
the read events the open stream will deliver. The deadline warning and
stream close are log-only. -/
def RequestPeerMetadata (fromJSON : List Nat → Option Resource)
    (stream : Option (List (List Nat × Option ReadErr))) : FetchOut :=
  match stream with
  | none => FetchOut.fails
  | some events =>
    match readLoop events [] with
    | none => FetchOut.diverges
    | some none => FetchOut.fails
    | some (some bytes) =>
      match fromJSON bytes with
      | none => FetchOut.fails
      | some md => FetchOut.ok md

/-- Does the character-list pattern match at the head of the text? -/
def charListMatch : List Char → List Char → Bool
  | [], _ => true
  | _ :: _, [] => false
  | p :: ps, c :: cs => p == c && charListMatch ps cs

/-- Does the pattern occur anywhere in the text? -/
def charListFind (pat : List Char) : List Char → Bool
  | [] => charListMatch pat []
  | c :: cs => charListMatch pat (c :: cs) || charListFind pat cs

/-- Embedding of Go's `strings.Contains(s, pat)`. -/
def strContains (s pat : String) : Bool :=
  charListFind pat.data s.data

/-- Embedding of `isRelayConnection` (`dht.go:386-388`). -/
def isRelayConnection (addr : String) : Bool :=
  strContains addr "/p2p-circuit/"

/-- Embedding of `Server.isHolePunchedConnection` (`dht.go:391-395`):
outbound direction and no relay marker. -/
def isHolePunchedConnection (remoteAddr direction : String) : Bool :=
  direction == "Outbound" && !(strContains remoteAddr "/p2p-circuit/")

/-- Embedding of `isExternalIP` (`dht.go:426-437`): an address is
external unless it contains one of six literal markers. -/
def isExternalIP (addr : String) : Bool :=
  if strContains addr "/ip4/127.0.0.1/" ||
      strContains addr "/ip4/192.168." ||
      strContains addr "/ip4/10." ||
      strContains addr "/ip4/172." ||
      strContains addr "/ip6/::1/" ||
      strContains addr "/ip6/fe80:" then
    false
  else
    true

/-- The four connection classes of the NAT classifier. -/
inductive ConnClass where
  | relay
  | holePunched
  | directExternal
  | local
deriving DecidableEq, Repr

/-- The classification chain of `GetNATStatus` (`dht.go:291-306`):
relay marker first, then the hole-punch heuristic, then
`isExternalIP`, else local. -/
def classifyConn (addr direction : String) : ConnClass :=
  if isRelayConnection addr then ConnClass.relay
  else if isHolePunchedConnection addr direction then ConnClass.holePunched
  else if isExternalIP addr then ConnClass.directExternal
  else ConnClass.local

/-- The counters `GetNATStatus` returns. -/
structure NatStats where
  total : Nat
  relayConns : Nat
  holePunchedConns : Nat
  directConns : Nat
  localConns : Nat
  externalConns : Nat
deriving DecidableEq, Repr

/-- Count one connection into the stats, as the branch chain of
`GetNATStatus` does: relay / hole-punched / direct / local are mutually
exclusive; hole-punched and direct also increment the external
counter. -/
def countConn (st : NatStats) (conn : String × String) : NatStats :=
  match classifyConn conn.1 conn.2 with
  | ConnClass.relay => { st with relayConns := st.relayConns + 1 }
  | ConnClass.holePunched =>
    { st with holePunchedConns := st.holePunchedConns + 1
              externalConns := st.externalConns + 1 }
  | ConnClass.directExternal =>
    { st with directConns := st.directConns + 1
              externalConns := st.externalConns + 1 }
  | ConnClass.local => { st with localConns := st.localConns + 1 }

/-- Embedding of `GetNATStatus` (`dht.go:279-309`) over the list of
current connections, each given as (remote multiaddr string, direction
string): `total` is the connection count, the other counters start at
zero and are filled by the branch chain. -/
def GetNATStatus (conns : List (String × String)) : NatStats :=
  conns.foldl countConn
    { total := conns.length, relayConns := 0, holePunchedConns := 0,
      directConns := 0, localConns := 0, externalConns := 0 }

/-- Remainder of the text after the first occurrence of the pattern,
`none` if the pattern does not occur. -/
def afterPat (pat : List Char) : List Char → Option (List Char)
  | [] => if charListMatch pat [] then some [] else none
  | c :: cs =>
    if charListMatch pat (c :: cs) then some ((c :: cs).drop pat.length)
    else afterPat pat cs

/-- Parse a nonempty all-digit character list as a decimal number. -/
def parseDecNat (l : List Char) : Option Nat :=
  if l.isEmpty then none
  else if l.all (fun c => c.isDigit) then
    some (l.foldl (fun n c => n * 10 + (c.toNat - 48)) 0)
  else none

/-- Parse a nonempty hex-digit character list as a number. -/
def parseHexNat (l : List Char) : Option Nat :=
  if l.isEmpty then none
  else if l.all (fun c => c.isDigit || ("abcdefABCDEF".data.contains c)) then
    some (l.foldl (fun n c =>
      n * 16 + (if c.isDigit then c.toNat - 48
                else if c.toNat ≥ 97 then c.toNat - 87 else c.toNat - 55)) 0)
  else none

/-- The dotted-quad after `/ip4/` in a multiaddr string, if present and
well-formed with each octet below 256. -/
def ip4Octets (addr : String) : Option (Nat × Nat × Nat × Nat) :=
  match afterPat "/ip4/".data addr.data with
  | none => none
  | some rest =>
    let ip := (rest.span (fun c => !(c == '/'))).1
    match (ip.splitOn '.').map parseDecNat with
    | [some a, some b, some c, some d] =>
      if a < 256 && b < 256 && c < 256 && d < 256 then some (a, b, c, d)
      else none
    | _ => none

/-- The IPv6 literal after `/ip6/` in a multiaddr string, if present. -/
def ip6Literal (addr : String) : Option (List Char) :=
  match afterPat "/ip6/".data addr.data with
  | none => none
  | some rest => some ((rest.span (fun c => !(c == '/'))).1)

/-- Written from the spec: does the remote address lie in a private
(RFC 1918), loopback, or link-local range? IPv4: 10/8, 172.16/12,
192.168/16 private; 127/8 loopback; 169.254/16 link-local. IPv6: `::1`
loopback; fe80::/10 (first group 0xfe80–0xfebf) link-local. -/
def specIsLocalAddr (addr : String) : Bool :=
  match ip4Octets addr with
  | some (a, b, _, _) =>
    (a == 10) || (a == 172 && decide (16 ≤ b ∧ b ≤ 31)) ||
      (a == 192 && b == 168) || (a == 127) || (a == 169 && b == 254)
  | none =>
    match ip6Literal addr with
    | none => false
    | some ip =>
      ip == "::1".data ||
        (match parseHexNat ((ip.span (fun c => !(c == ':'))).1) with
         | some g => decide (0xfe80 ≤ g ∧ g ≤ 0xfebf)
         | none => false)

/-- Written from the spec: the classification rule the claim states —
relay marker ⇒ Relay; else outbound ⇒ HolePunched; else Local exactly
when the remote address lies in a private/loopback/link-local range,
and DirectExternal otherwise. -/
def specClassify (addr direction : String) : ConnClass :=
  if strContains addr "/p2p-circuit/" then ConnClass.relay
  else if direction == "Outbound" then ConnClass.holePunched
  else if specIsLocalAddr addr then ConnClass.local
  else ConnClass.directExternal

/-- Opaque stand-in for a parsed `multiaddr.Multiaddr`. -/
structure Multiaddr where
  raw : String
deriving DecidableEq, Repr

/-- Opaque stand-in for a `peer.AddrInfo`. -/
structure AddrInfo where
  id : String
deriving DecidableEq, Repr

/-- The environment `BootstrapDHTWithPeers` runs against: the two
address-parsing steps of the libp2p libraries, the per-peer dial
outcomes of `h.Connect`, the library's default public bootstrap set
(`dht.GetDefaultBootstrapPeerAddrInfos`), and the outcome of the DHT
routing-table bootstrap `kadDHT.Bootstrap`. -/
structure BootstrapEnv where
  parseMultiaddr : String → Option Multiaddr
  addrInfoFromP2pAddr : Multiaddr → Option AddrInfo
  connectOk : AddrInfo → Bool
  defaultPublicPeers : List AddrInfo
  dhtBootstrapErr : Option GoError

/-- The constant `defaultBootstrapPeerAddr` (`discovery.go:44`). -/
def defaultBootstrapPeerAddr : String :=
  "/ip4/127.0.0.1/tcp/9000/p2p/12D3KooWLLUBEZhkEq6NtTLD99RRpEYdcbe8uzx3L56UgF5VK4bw"

/-- The per-custom-peer parsing of `BootstrapDHTWithPeers`
(`discovery.go:97-109`): multiaddr parse then `AddrInfoFromP2pAddr`,
each failure skipping the entry (`continue`). -/
def parsePeerAddr (env : BootstrapEnv) (s : String) : Option AddrInfo :=
  match env.parseMultiaddr s with
  | none => none
  | some addr => env.addrInfoFromP2pAddr addr

/-- The fallback of `BootstrapDHTWithPeers` (`discovery.go:113-128`)
when no custom peer parsed: parse the built-in default address; if
either parsing step fails, use the library's default public set. -/
def fallbackBootstrapPeers (env : BootstrapEnv) : List AddrInfo :=
  match env.parseMultiaddr defaultBootstrapPeerAddr with
  | none => env.defaultPublicPeers
  | some addr =>
    match env.addrInfoFromP2pAddr addr with
    | none => env.defaultPublicPeers
    | some pi => [pi]

/-- What a `BootstrapDHTWithPeers` call did: each seed peer dialed with
its dial outcome (failures are logged only), and the returned error. -/
structure BootstrapOutcome where
  dialResults : List (AddrInfo × Bool)
  err : Option GoError
deriving DecidableEq, Repr

/-- Embedding of `BootstrapDHTWithPeers` (`discovery.go:92-141`):
collect the custom peers that parse; if none, fall back; dial each
(recording but never propagating outcomes); return an error exactly
when `kadDHT.Bootstrap` errors, wrapped with the Go message prefix. -/
def BootstrapDHTWithPeers (env : BootstrapEnv) (customPeers : List String) :
    BootstrapOutcome :=
  let parsed := customPeers.filterMap (parsePeerAddr env)
  let bootstrapPeers := if parsed.isEmpty then fallbackBootstrapPeers env else parsed
  { dialResults := bootstrapPeers.map (fun p => (p, env.connectOk p))
    err := env.dhtBootstrapErr.map (fun e => "bootstrap DHT: " ++ e) }

/-- A call the DHT server makes into the peer manager. -/
inductive ManagerCall where
  | removePeer (id : String)
deriving DecidableEq, Repr

/-- The connection data a network notification carries. -/
structure NetConn where
  remotePeer : String
  remoteAddr : String
deriving DecidableEq, Repr

/-- The per-peer state the peer manager keeps (spec `PeerInfo`), as far
as the disconnect claim cares: failure counter, health, and whether a
health check is in flight. -/
structure PeerRegEntry where
  consecutiveFailures : Nat
  healthy : Bool
  inFlightCheck : Bool
deriving DecidableEq, Repr

/-- Embedding of `Server.handlePeerDisconnected` (`dht.go:370-383`) as
the list of peer-manager calls it issues. The handler has the manager
(and through it the registry, passed here to make independence
statable) in scope, but its body only logs and calls
`RemovePeer(conn.RemotePeer())` — no branch consults the registry. -/
def handlePeerDisconnected (registry : List (String × PeerRegEntry))
    (conn : NetConn) : List ManagerCall :=
  [ManagerCall.removePeer conn.remotePeer]

/-- The `PeerHealthConfig` fields set in `getPeerManagerConfig`
(`dht.go:114-131`), durations in seconds. -/
structure PeerHealthConfig where
  stalePeerTimeout : Int
  healthCheckInterval : Int
  maxFailedAttempts : Nat
  backoffBase : Int
  metadataTimeout : Int
  maxMetadataAge : Int
deriving DecidableEq, Repr

/-- The `peermanager.Config` fields set in `getPeerManagerConfig`. -/
structure PeerManagerConfig where
  discoveryInterval : Int
  advertisingInterval : Int
  metadataUpdateInterval : Int
  health : PeerHealthConfig
deriving DecidableEq, Repr

/-- The test-mode branch of `getPeerManagerConfig` (`dht.go:115-129`):
the configuration the repository itself runs under
`CROWDLLAMA_TEST_MODE=1`, with `MaxMetadataAge = 30` seconds. (The
non-test branch returns `peermanager.DefaultConfig()`, whose package is
not among the provided sources.) -/
def testModePeerManagerConfig : PeerManagerConfig :=
  { discoveryInterval := 2
    advertisingInterval := 5
    metadataUpdateInterval := 5
    health :=
      { stalePeerTimeout := 30
        healthCheckInterval := 5
        maxFailedAttempts := 2
        backoffBase := 5
        metadataTimeout := 2
        maxMetadataAge := 30 } }

/-- Joint state of `Server.Stop` (`dht.go:209-216`) and the
periodic-logging loop `startPeriodicLogging` (`dht.go:398-423`).
`stopPC`: 0 = before `peerManager.Stop()`, 1 = before `cancel()`, 2 =
before `Host.Close()`, 3 = `Stop` has returned. `loopPhase`: 0 = the
goroutine is at its `select`, 1 = it has taken a ticker branch and is
about to run `LogNATStatus`/`LogPeerStats` (which call methods on
`s.Host`), 2 = it has exited via `ctx.Done()`.
`touchedClosedHost` records whether a logging body ran against an
already-closed host. -/
structure StopSys where
  stopPC : Nat
  cancelled : Bool
  hostClosed : Bool
  loopPhase : Nat
  touchedClosedHost : Bool
deriving DecidableEq, Repr

/-- Atomic events of the Stop / logging-loop interleaving. `pmStop` is
`s.peerManager.Stop()`, modelled per the spec as returning only after
the peer-manager loops exit (those loops live in a package outside the
provided sources). `cancelCtx` is `s.cancel()`; `closeHost` is
`s.Host.Close()`. `tickFire` is the loop committing a ticker branch of
its `select` (possible whenever the context is not yet cancelled);
`loopBody` is the logging body it then runs, touching the host;
`loopQuit` is the `ctx.Done()` branch. -/
inductive SysEv where
  | pmStop
  | cancelCtx
  | closeHost
  | tickFire
  | loopBody
  | loopQuit
deriving DecidableEq, Repr

/-- One enabled transition of the interleaving; `none` when the event
is not enabled in the state. -/
def sysStep (s : StopSys) : SysEv → Option StopSys
  | SysEv.pmStop =>
    if s.stopPC = 0 then some { s with stopPC := 1 } else none
  | SysEv.cancelCtx =>
    if s.stopPC = 1 then some { s with stopPC := 2, cancelled := true } else none
  | SysEv.closeHost =>
    if s.stopPC = 2 then some { s with stopPC := 3, hostClosed := true } else none
  | SysEv.tickFire =>
    if s.loopPhase = 0 ∧ ¬s.cancelled then some { s with loopPhase := 1 } else none
  | SysEv.loopBody =>
    if s.loopPhase = 1 then
      some { s with loopPhase := 0
                    touchedClosedHost := s.touchedClosedHost || s.hostClosed }
    else none
  | SysEv.loopQuit =>
    if s.loopPhase = 0 ∧ s.cancelled then some { s with loopPhase := 2 } else none

/-- Run a sequence of events from a state; `none` if any event is not
enabled where it occurs (so `some` certifies a valid interleaving). -/
def runSys (s : StopSys) : List SysEv → Option StopSys
  | [] => some s
  | e :: rest =>
    match sysStep s e with
    | none => none
    | some s2 => runSys s2 rest

/-- Initial state: `Stop` about to run, loop at its `select`. -/
def initStopSys : StopSys :=
  { stopPC := 0, cancelled := false, hostClosed := false, loopPhase := 0,
    touchedClosedHost := false }

/-- The racy schedule: the logging loop commits a ticker branch, then
`Stop` runs to completion (`peerManager.Stop`, `cancel`, `Host.Close`),
then the already-committed logging body runs against the closed host. -/
def stopRaceTrace : List SysEv :=
  [SysEv.tickFire, SysEv.pmStop, SysEv.cancelCtx, SysEv.closeHost, SysEv.loopBody]

/-- The state the racy schedule ends in. -/
def stopRaceFinal : StopSys :=
  { stopPC := 3, cancelled := true, hostClosed := true, loopPhase := 0,
    touchedClosedHost := true }

/-- A sample capability descriptor with the given `LastUpdated`
timestamp, used as concrete input in witnesses and counterexamples. -/
def mkResource (lu : Int) : Resource :=
  { peerID := "peer-1", gpuModel := "GPU", vramGB := 8, tokensThroughput := 0,
    supportedModels := ["m"], workerMode := true, lastUpdated := lu }

/-- A concrete bootstrap environment for witnesses: every address
parses to itself, every dial fails, and the DHT bootstrap errors. -/
def sampleBootstrapEnv : BootstrapEnv :=
  { parseMultiaddr := fun s => some { raw := s }
    addrInfoFromP2pAddr := fun m => some { id := m.raw }
    connectOk := fun _ => false
    defaultPublicPeers := []
    dhtBootstrapErr := some "network down" }

/-- `GetPeerNamespaceCID` evaluates to the spec-described CID; shared
by several proofs below. -/
theorem getPeerNamespaceCIDOf_eq (ns : String) :
    GetPeerNamespaceCIDOf ns = Except.ok (specNamespaceCid ns) := by
  simp [GetPeerNamespaceCIDOf, multihashSum, identityCode, specNamespaceCid]

/-- The fixed-namespace CID in particular. -/
theorem getPeerNamespaceCID_eq :
    GetPeerNamespaceCID = Except.ok (specNamespaceCid PeerNamespace) :=
  getPeerNamespaceCIDOf_eq PeerNamespace

/-- Counting one connection adds exactly one to the four class
counters, moves the external counter in step with hole-punched plus
direct, and leaves `total` alone. -/
theorem countConn_sums (st : NatStats) (c : String × String) :
    ((countConn st c).relayConns + (countConn st c).holePunchedConns +
        (countConn st c).directConns + (countConn st c).localConns
      = st.relayConns + st.holePunchedConns + st.directConns + st.localConns + 1)
    ∧ ((countConn st c).externalConns + st.holePunchedConns + st.directConns
      = st.externalConns + (countConn st c).holePunchedConns + (countConn st c).directConns)
    ∧ (countConn st c).total = st.total := by
  unfold countConn
  cases classifyConn c.1 c.2 <;> simp <;> omega

/-- The fold of `countConn` keeps both counting invariants. -/
theorem foldl_countConn_sums (l : List (String × String)) (st : NatStats) :
    ((l.foldl countConn st).relayConns + (l.foldl countConn st).holePunchedConns +
        (l.foldl countConn st).directConns + (l.foldl countConn st).localConns
      = st.relayConns + st.holePunchedConns + st.directConns + st.localConns + l.length)
    ∧ ((l.foldl countConn st).externalConns + st.holePunchedConns + st.directConns
      = st.externalConns + (l.foldl countConn st).holePunchedConns +
          (l.foldl countConn st).directConns)
    ∧ (l.foldl countConn st).total = st.total := by
  induction l generalizing st with
  | nil => simp
  | cons c rest ih =>
    simp only [List.foldl_cons, List.length_cons]
    obtain ⟨a1, a2, a3⟩ := countConn_sums st c
    obtain ⟨b1, b2, b3⟩ := ih (countConn st c)
    exact ⟨by omega, by omega, by omega⟩

/-- C10. In every map returned by `GetNATStatus`, each connection is
counted in exactly one of the four classes, so relay + hole-punched +
direct + local = total, and external = hole-punched + direct. -/
theorem natStatus_partition (conns : List (String × String)) :
    ((GetNATStatus conns).relayConns + (GetNATStatus conns).holePunchedConns +
        (GetNATStatus conns).directConns + (GetNATStatus conns).localConns
      = (GetNATStatus conns).total)
    ∧ (GetNATStatus conns).externalConns
      = (GetNATStatus conns).holePunchedConns + (GetNATStatus conns).directConns := by
  unfold GetNATStatus
  obtain ⟨s1, s2, s3⟩ := foldl_countConn_sums conns
    { total := conns.length, relayConns := 0, holePunchedConns := 0,
      directConns := 0, localConns := 0, externalConns := 0 }
  dsimp only at s1 s2 s3
  exact ⟨by omega, by omega⟩

/-- C7. `GetPeerNamespaceCID` is deterministic and total: for any
namespace string the embedded function succeeds and returns exactly the
CIDv1 (raw codec) over the identity multihash of the string's bytes, so
every call — on the advertise path or the lookup path — returns the
same CID. -/
theorem namespace_cid_total_deterministic :
    (∀ ns : String, GetPeerNamespaceCIDOf ns = Except.ok (specNamespaceCid ns))
    ∧ GetPeerNamespaceCID = Except.ok (specNamespaceCid PeerNamespace)
    ∧ (specNamespaceCid PeerNamespace).version = 1
    ∧ (specNamespaceCid PeerNamespace).codec = rawCodec := by
  exact ⟨getPeerNamespaceCIDOf_eq, getPeerNamespaceCID_eq, rfl, rfl⟩

/-- C5. For every disconnect notification, the server's disconnect
handler issues exactly the call `RemovePeer(conn.RemotePeer())`,
whatever the peer registry holds — so the removal is unconditional and
independent of failure counters, health state, or in-flight checks. -/
theorem disconnect_always_removes
    (registry registry2 : List (String × PeerRegEntry)) (conn : NetConn) :
    handlePeerDisconnected registry conn = [ManagerCall.removePeer conn.remotePeer]
    ∧ handlePeerDisconnected registry conn = handlePeerDisconnected registry2 conn :=
  ⟨rfl, rfl⟩

/-- C2. `DiscoverPeers` never returns an error at all — the namespace
CID computation always succeeds and the provider query has no error
channel — and in particular it maps an empty candidate sequence to an
empty result with no error. -/
theorem discoverPeers_error_only_structural :
    (∀ (pmPresent : Bool) (now : Int) (cands : List Candidate),
      (DiscoverPeers pmPresent now cands).isOk = true)
    ∧ (∀ (pmPresent : Bool) (now : Int),
      DiscoverPeers pmPresent now [] = Except.ok []) := by
  constructor
  · intro pmPresent now cands
    simp [DiscoverPeers, getPeerNamespaceCID_eq, Except.isOk, Except.toBool]
  · intro pmPresent now
    simp [DiscoverPeers, getPeerNamespaceCID_eq]

/-- C3. Per-candidate metadata-fetch failures are non-fatal and
reported: on a failed fetch `processProvider` (manager present, peer
not unhealthy) returns nil and calls `MarkPeerAsRecentlyRemoved`;
stream-open failure, an empty response (EOF with zero bytes), a read
error or expired deadline, and JSON decode failure each make
`RequestPeerMetadata` fail; and no candidate outcome ever makes
`DiscoverPeers` itself error. -/
theorem per_candidate_failures_nonfatal :
    (∀ now : Int, processProvider true false none now
        = { result := none, marked := true, fetched := true })
    ∧ (∀ fromJSON : List Nat → Option Resource,
        RequestPeerMetadata fromJSON none = FetchOut.fails)
    ∧ (∀ fromJSON : List Nat → Option Resource,
        RequestPeerMetadata fromJSON (some [([], some ReadErr.eof)]) = FetchOut.fails)
    ∧ (∀ (fromJSON : List Nat → Option Resource) (bs : List Nat),
        RequestPeerMetadata fromJSON (some [(bs, some ReadErr.other)]) = FetchOut.fails)
    ∧ (∀ (events : List (List Nat × Option ReadErr)) (r : Resource),
        RequestPeerMetadata (fun _ => none) (some events) ≠ FetchOut.ok r)
    ∧ (∀ (pmPresent : Bool) (now : Int) (cands : List Candidate),
        (DiscoverPeers pmPresent now cands).isOk = true) := by
  refine ⟨?_, ?_, ?_, ?_, ?_, ?_⟩
  · intro now; simp [processProvider]
  · intro fromJSON; rfl
  · intro fromJSON; simp [RequestPeerMetadata, readLoop]
  · intro fromJSON bs; simp [RequestPeerMetadata, readLoop]
  · intro events r
    simp only [RequestPeerMetadata]
    cases h : readLoop events [] with
    | none => simp
    | some inner => cases inner <;> simp
  · intro pmPresent now cands
    simp [DiscoverPeers, getPeerNamespaceCID_eq, Except.isOk, Except.toBool]

/-- Witness for C3 at concrete inputs: a failing fetch at time 0, and a
decoder that always fails on a concrete one-chunk stream. -/
theorem per_candidate_failures_nonfatal_witness :
    processProvider true false none 0
        = { result := none, marked := true, fetched := true }
    ∧ RequestPeerMetadata (fun _ => none) (some [([42], some ReadErr.eof)])
        ≠ FetchOut.ok (mkResource 0) :=
  ⟨per_candidate_failures_nonfatal.1 0,
   per_candidate_failures_nonfatal.2.2.2.2.1 [([42], some ReadErr.eof)] (mkResource 0)⟩

/-- C4. A candidate the health manager classifies unhealthy is skipped
before any stream is opened: `processProvider` returns nil with no
fetch attempted and no marking, and such a candidate contributes
nothing to `DiscoverPeers` — dropping it from the candidate list leaves
the result unchanged. -/
theorem unhealthy_candidate_skipped :
    (∀ (fetch : Option Resource) (now : Int),
      processProvider true true fetch now
        = { result := none, marked := false, fetched := false })
    ∧ (∀ (now : Int) (c : Candidate) (cands : List Candidate),
        c.isUnhealthy = true →
        DiscoverPeers true now (c :: cands) = DiscoverPeers true now cands) := by
  constructor
  · intro fetch now; simp [processProvider]
  · intro now c cands h
    simp [DiscoverPeers, getPeerNamespaceCID_eq, List.filterMap_cons, h, processProvider]

/-- Witness for C4: a concrete unhealthy candidate at time 0. -/
theorem unhealthy_candidate_skipped_witness :
    processProvider true true (some (mkResource 0)) 0
        = { result := none, marked := false, fetched := false }
    ∧ DiscoverPeers true 0 [{ peerID := "p", isUnhealthy := true, fetch := some (mkResource 0) }]
        = DiscoverPeers true 0 [] :=
  ⟨unhealthy_candidate_skipped.1 (some (mkResource 0)) 0,
   unhealthy_candidate_skipped.2 0
     { peerID := "p", isUnhealthy := true, fetch := some (mkResource 0) } [] rfl⟩

/-- C1's counterexample. `processProvider` checks a hardcoded one-hour
threshold, not the configured `MaxMetadataAge`: under the repository's
own test-mode configuration (`MaxMetadataAge` = 30 s), a resource whose
`LastUpdated` is 600 s old — older than `MaxMetadataAge` — is still
returned. -/
theorem staleness_uses_fixed_hour_not_config :
    (processProvider true false (some (mkResource 999400)) 1000000).result
      = some (mkResource 999400)
    ∧ 1000000 - (mkResource 999400).lastUpdated
        > testModePeerManagerConfig.health.maxMetadataAge := by
  constructor <;> decide

/-- C1 as amended: the staleness threshold `processProvider` enforces
is the fixed one hour (3600 s): metadata older than that is rejected
(nil), a returned resource is exactly the fetched one and is at most
one hour old, and every resource in a `DiscoverPeers` result is at most
one hour old. -/
theorem processProvider_one_hour_staleness :
    (∀ (pmPresent isUnhealthy : Bool) (r : Resource) (now : Int),
      now - r.lastUpdated > processProviderMaxAgeSeconds →
      (processProvider pmPresent isUnhealthy (some r) now).result = none)
    ∧ (∀ (pmPresent isUnhealthy : Bool) (fetch : Option Resource) (now : Int)
        (r : Resource),
      (processProvider pmPresent isUnhealthy fetch now).result = some r →
      fetch = some r ∧ now - r.lastUpdated ≤ processProviderMaxAgeSeconds)
    ∧ (∀ (pmPresent : Bool) (now : Int) (cands : List Candidate) (l : List Resource)
        (r : Resource),
      DiscoverPeers pmPresent now cands = Except.ok l → r ∈ l →
      now - r.lastUpdated ≤ processProviderMaxAgeSeconds) := by
  have hsound : ∀ (pmPresent isUnhealthy : Bool) (fetch : Option Resource) (now : Int)
      (r : Resource),
      (processProvider pmPresent isUnhealthy fetch now).result = some r →
      fetch = some r ∧ now - r.lastUpdated ≤ processProviderMaxAgeSeconds := by
    intro pm iu fetch now r h
    simp only [processProvider] at h
    split at h
    · exact absurd h (by simp)
    · cases fetch with
      | none => exact absurd h (by simp)
      | some md =>
        simp only at h
        split at h
        · exact absurd h (by simp)
        · rename_i hc
          simp only [Option.some.injEq] at h
          subst h
          exact ⟨rfl, by omega⟩
  refine ⟨?_, hsound, ?_⟩
  · intro pm iu r now h
    simp only [processProvider]
    split
    · rfl
    · simp only [if_pos h]
  · intro pm now cands l r hd hm
    simp only [DiscoverPeers, getPeerNamespaceCID_eq, Except.ok.injEq] at hd
    subst hd
    obtain ⟨c, _, hc⟩ := List.mem_filterMap.mp hm
    exact (hsound pm c.isUnhealthy c.fetch now r hc).2

/-- Witness for the amended C1: a resource 10000 s old is rejected. -/
theorem processProvider_one_hour_staleness_witness :
    (processProvider true false (some (mkResource 0)) 10000).result = none :=
  processProvider_one_hour_staleness.1 true false (mkResource 0) 10000 (by decide)

/-- C6. `BootstrapDHTWithPeers` errors exactly when the DHT
routing-table bootstrap errors; custom addresses that fail either
parsing step are skipped; when none parses (or none is supplied) the
fallback seed set is dialed, otherwise exactly the parsed custom peers
are; and the outcome is independent of the per-peer dial results. -/
theorem bootstrap_error_iff_dht_bootstrap (env : BootstrapEnv)
    (customPeers : List String) :
    ((BootstrapDHTWithPeers env customPeers).err.isSome
      ↔ env.dhtBootstrapErr.isSome)
    ∧ (customPeers.filterMap (parsePeerAddr env) = [] →
        (BootstrapDHTWithPeers env customPeers).dialResults.map Prod.fst
          = fallbackBootstrapPeers env)
    ∧ (customPeers.filterMap (parsePeerAddr env) ≠ [] →
        (BootstrapDHTWithPeers env customPeers).dialResults.map Prod.fst
          = customPeers.filterMap (parsePeerAddr env))
    ∧ (∀ connect2 : AddrInfo → Bool,
        (BootstrapDHTWithPeers { env with connectOk := connect2 } customPeers).err
          = (BootstrapDHTWithPeers env customPeers).err) := by
  refine ⟨?_, ?_, ?_, fun connect2 => rfl⟩
  · simp only [BootstrapDHTWithPeers]
    cases env.dhtBootstrapErr <;> simp
  · intro h
    simp only [BootstrapDHTWithPeers, h, List.isEmpty_nil, if_pos, List.map_map]
    exact List.map_id _
  · intro h
    have hne : (customPeers.filterMap (parsePeerAddr env)).isEmpty = false := by
      simpa [List.isEmpty_iff] using h
    simp only [BootstrapDHTWithPeers, hne, Bool.false_eq_true, if_false, List.map_map]
    exact List.map_id _

/-- Witness for C6: with a concrete environment whose DHT bootstrap
fails and an empty custom list, the call errors and dials the fallback
set. -/
theorem bootstrap_error_iff_dht_bootstrap_witness :
    (BootstrapDHTWithPeers sampleBootstrapEnv []).err.isSome = true
    ∧ (BootstrapDHTWithPeers sampleBootstrapEnv []).dialResults.map Prod.fst
        = fallbackBootstrapPeers sampleBootstrapEnv :=
  ⟨(bootstrap_error_iff_dht_bootstrap sampleBootstrapEnv []).1.mpr (by rfl),
   (bootstrap_error_iff_dht_bootstrap sampleBootstrapEnv []).2.1 (by rfl)⟩

/-- C8's counterexample. The code's substring heuristic disagrees with
genuine private/loopback/link-local ranges: 172.217.22.14 is a public
address (outside 172.16.0.0/12), yet the classifier marks the inbound
connection Local because the address contains `/ip4/172.`, where the
claimed rule gives DirectExternal. -/
theorem nat_classifier_range_counterexample :
    classifyConn "/ip4/172.217.22.14/tcp/4001" "Inbound" = ConnClass.local
    ∧ specClassify "/ip4/172.217.22.14/tcp/4001" "Inbound" = ConnClass.directExternal
    ∧ ConnClass.local ≠ ConnClass.directExternal := by
  refine ⟨by decide, by decide, by decide⟩

/-- C8 as amended: relay marker ⇒ Relay; else outbound ⇒ HolePunched;
else Local exactly when `isExternalIP` deems the address non-external
and DirectExternal exactly when it deems it external, where
non-external holds exactly when the address string contains one of the
six literal markers — a substring approximation of the private/
loopback/link-local ranges (e.g. all of 172.0.0.0/8 counts as
local). -/
theorem nat_classifier_marker_semantics (addr direction : String) :
    (isRelayConnection addr = true → classifyConn addr direction = ConnClass.relay)
    ∧ (isRelayConnection addr = false → direction = "Outbound" →
        classifyConn addr direction = ConnClass.holePunched)
    ∧ (isRelayConnection addr = false → direction ≠ "Outbound" →
        (classifyConn addr direction = ConnClass.local ↔ isExternalIP addr = false))
    ∧ (isRelayConnection addr = false → direction ≠ "Outbound" →
        (classifyConn addr direction = ConnClass.directExternal ↔ isExternalIP addr = true))
    ∧ (isExternalIP addr = false ↔
        (strContains addr "/ip4/127.0.0.1/" = true
          ∨ strContains addr "/ip4/192.168." = true
          ∨ strContains addr "/ip4/10." = true
          ∨ strContains addr "/ip4/172." = true
          ∨ strContains addr "/ip6/::1/" = true
          ∨ strContains addr "/ip6/fe80:" = true)) := by
  have hhpOf : ∀ direction, direction ≠ "Outbound" →
      isHolePunchedConnection addr direction = false := by
    intro dir hdir
    simp [isHolePunchedConnection]
    intro hd
    exact absurd hd hdir
  refine ⟨?_, ?_, ?_, ?_, ?_⟩
  · intro h; simp [classifyConn, h]
  · intro h1 h2
    subst h2
    have h1' : strContains addr "/p2p-circuit/" = false := by
      simpa [isRelayConnection] using h1
    simp [classifyConn, isRelayConnection, isHolePunchedConnection, h1']
  · intro h1 h2
    cases hext : isExternalIP addr <;>
      simp [classifyConn, h1, hhpOf direction h2, hext]
  · intro h1 h2
    cases hext : isExternalIP addr <;>
      simp [classifyConn, h1, hhpOf direction h2, hext]
  · constructor
    · intro h
      by_cases hc : (strContains addr "/ip4/127.0.0.1/" || strContains addr "/ip4/192.168." ||
          strContains addr "/ip4/10." || strContains addr "/ip4/172." ||
          strContains addr "/ip6/::1/" || strContains addr "/ip6/fe80:") = true
      · simpa [Bool.or_eq_true, or_assoc] using hc
      · exact absurd h (by simp [isExternalIP, hc])
    · intro h
      have hc : (strContains addr "/ip4/127.0.0.1/" || strContains addr "/ip4/192.168." ||
          strContains addr "/ip4/10." || strContains addr "/ip4/172." ||
          strContains addr "/ip6/::1/" || strContains addr "/ip6/fe80:") = true := by
        simpa [Bool.or_eq_true, or_assoc] using h
      simp [isExternalIP, hc]

/-- Witness for the amended C8: a concrete inbound 10.x address is
classified Local via the `/ip4/10.` marker, and a concrete inbound
marker-free address is classified DirectExternal. -/
theorem nat_classifier_marker_semantics_witness :
    classifyConn "/ip4/10.0.0.5/tcp/9000" "Inbound" = ConnClass.local
    ∧ classifyConn "/ip4/8.8.8.8/tcp/53" "Inbound" = ConnClass.directExternal :=
  ⟨((nat_classifier_marker_semantics "/ip4/10.0.0.5/tcp/9000" "Inbound").2.2.1
      (by decide) (by decide)).mpr
    ((nat_classifier_marker_semantics "/ip4/10.0.0.5/tcp/9000" "Inbound").2.2.2.2.mpr
      (Or.inr (Or.inr (Or.inl (by decide))))),
   ((nat_classifier_marker_semantics "/ip4/8.8.8.8/tcp/53" "Inbound").2.2.2.1
      (by decide) (by decide)).mpr (by decide)⟩

/-- C9. The code violates the claim: a valid interleaving exists in
which `Server.Stop` has returned (`stopPC = 3`) while the
periodic-logging loop has not exited (`loopPhase ≠ 2`) and its logging
body has already operated on the closed host. `Stop` cancels the
context and closes the host without joining the logging goroutine. -/
theorem stop_returns_before_logging_loop_exits :
    runSys initStopSys stopRaceTrace = some stopRaceFinal
    ∧ stopRaceFinal.stopPC = 3
    ∧ stopRaceFinal.loopPhase ≠ 2
    ∧ stopRaceFinal.touchedClosedHost = true := by
  decide

end CrowdLlama
